import Mathlib

/-!
Verification of the CCTP Visualizer indexing and reconciliation pipeline.

This file gives a shallow embedding of the core of the repository:
the checkpoint store (SQL functions `update_checkpoint` / `get_checkpoint`),
the scheduler's per-chain block-range computation (`CCTPScheduler.indexChain`),
the indexer's chunking loop and calldata decoding (`EVMIndexer`), the raw
burn/mint tables with their idempotency key, the transfer state machine
(`TransferService`), and the metrics aggregator (`MetricsAggregator`).
Block numbers are modelled as `Int` (JS bigint); timestamps as `Nat`
(milliseconds); token amounts keep their source representation as strings.
-/

namespace CCTP

/-! ## Checkpoint store

The table `chain_checkpoints (chain_domain INTEGER PRIMARY KEY,
last_processed_block BIGINT)` is modelled as a map from domain to the stored
block.  `update_checkpoint` does `INSERT ... ON CONFLICT (chain_domain)
DO UPDATE SET last_processed_block = p_last_block` — an unconditional
overwrite.  `get_checkpoint` returns `COALESCE(v_block, 0)`. -/

def ChainCheckpoints : Type := Nat → Option Int

/-- The SQL function `update_checkpoint(p_chain_domain, p_last_block)`:
upsert that unconditionally sets `last_processed_block = p_last_block`. -/
def update_checkpoint (store : ChainCheckpoints) (domain : Nat) (block : Int) :
    ChainCheckpoints :=
  fun d => if d = domain then some block else store d

/-- The SQL function `get_checkpoint(p_chain_domain)`: the stored block,
defaulting to 0 when no row exists. -/
def get_checkpoint (store : ChainCheckpoints) (domain : Nat) : Int :=
  (store domain).getD 0

/-- The empty `chain_checkpoints` table. -/
def emptyCheckpoints : ChainCheckpoints := fun _ => none

/-! ## Scheduler block-range computation (`CCTPScheduler.indexChain`) -/

/-- `FINALITY_BUFFER = 3n` in `CCTPScheduler.ts`. -/
def FINALITY_BUFFER : Int := 3

/-- `MAX_BLOCKS_PER_CYCLE = 500n` in `CCTPScheduler.ts`. -/
def MAX_BLOCKS_PER_CYCLE : Int := 500

/-- The block-range computation of `CCTPScheduler.indexChain`, given the
stored checkpoint `lastBlock` and `safeBlock = currentBlock - FINALITY_BUFFER`:
return if no new blocks; on first run seed 5000 blocks back (clamped at 0);
otherwise start at `lastBlock + 1`; cap the range at `MAX_BLOCKS_PER_CYCLE`. -/
def computeRange (lastBlock safeBlock : Int) : Option (Int × Int) :=
  if safeBlock ≤ lastBlock then none
  else
    let fromBlock : Int :=
      if lastBlock = 0 then
        let f := safeBlock - 5000
        if f < 0 then 0 else f
      else lastBlock + 1
    let toBlock : Int :=
      if safeBlock - fromBlock > MAX_BLOCKS_PER_CYCLE then
        fromBlock + MAX_BLOCKS_PER_CYCLE
      else safeBlock
    some (fromBlock, toBlock)

/-- The checkpoint effect of `CCTPScheduler.indexChain` on one chain in one
cycle: read the checkpoint, compute the range, and (via
`EVMIndexer.indexBlockRange`, which ends with `updateCheckpoint(toBlock)`)
store `toBlock`. -/
def indexChainStep (store : ChainCheckpoints) (domain : Nat)
    (currentBlock : Int) : ChainCheckpoints :=
  let lastBlock := get_checkpoint store domain
  let safeBlock := currentBlock - FINALITY_BUFFER
  match computeRange lastBlock safeBlock with
  | none => store
  | some r => update_checkpoint store domain r.2

theorem get_update_checkpoint (store : ChainCheckpoints) (d : Nat) (b : Int) :
    get_checkpoint (update_checkpoint store d b) d = b := by
  simp [get_checkpoint, update_checkpoint]

theorem computeRange_advances (lastBlock safeBlock : Int) (f t : Int)
    (h : computeRange lastBlock safeBlock = some (f, t)) :
    lastBlock ≤ t := by
  simp only [computeRange, MAX_BLOCKS_PER_CYCLE] at h
  split at h
  · exact absurd h (by simp)
  · simp only [Option.some.injEq, Prod.mk.injEq] at h
    obtain ⟨hf, ht⟩ := h
    subst hf
    subst ht
    split_ifs <;> omega

/-- C1 counterexample: calling `update_checkpoint` with a block (5) lower than
the stored checkpoint (100) moves the stored checkpoint backward to 5. -/
theorem update_checkpoint_moves_backward :
    get_checkpoint (update_checkpoint emptyCheckpoints 1 100) 1 = 100 ∧
    get_checkpoint
      (update_checkpoint (update_checkpoint emptyCheckpoints 1 100) 1 5) 1 = 5 ∧
    (5 : Int) < 100 := by
  refine ⟨rfl, rfl, by decide⟩

/-- C1 (amended): `update_checkpoint` unconditionally overwrites the stored
checkpoint with its argument (so a lower value does move it backward), but
along the scheduler's own calls the stored checkpoint never decreases:
`indexChainStep` only writes a `toBlock` that is at least the old checkpoint. -/
theorem checkpoint_monotone_under_scheduler (store : ChainCheckpoints)
    (domain : Nat) (currentBlock : Int) (d : Nat) (b : Int) :
    get_checkpoint store domain ≤
      get_checkpoint (indexChainStep store domain currentBlock) domain ∧
    get_checkpoint (update_checkpoint store d b) d = b := by
  refine ⟨?_, get_update_checkpoint store d b⟩
  cases hr : computeRange (get_checkpoint store domain)
      (currentBlock - FINALITY_BUFFER) with
  | none => simp only [indexChainStep, hr]; exact le_refl _
  | some r =>
      simp only [indexChainStep, hr, get_update_checkpoint]
      exact computeRange_advances _ _ r.1 r.2 (by rw [hr])

/-- C4 counterexample: with the checkpoint at 1000 and a safe head at 11000
(10,000 blocks behind, `maxBlocksPerCycle = 500`), the cycle indexes
`[1001, 1501]` — 501 blocks, advancing the checkpoint by 501, not 500. -/
theorem scheduler_advances_501_cex :
    computeRange 1000 11000 = some (1001, 1501) ∧
    (1501 : Int) - 1000 = 501 ∧
    ¬ ((1501 : Int) - 1000 = 500) ∧
    (1501 : Int) - 1001 + 1 = 501 ∧
    ¬ ((1501 : Int) - 1001 + 1 ≤ 500) := by
  refine ⟨rfl, by decide, by decide, by decide, by decide⟩

/-- C4 (amended): when a chain with a nonzero checkpoint is more than 501
blocks behind the safe head, the cycle sets `fromBlock = checkpoint + 1` and
`toBlock = min(safeBlock, fromBlock + maxBlocksPerCycle) = checkpoint + 501`,
so the checkpoint advances by exactly 501 and exactly 501 blocks
(`maxBlocksPerCycle + 1`) are indexed in the cycle. -/
theorem scheduler_advance_per_cycle (lastBlock safeBlock : Int)
    (h0 : lastBlock ≠ 0) (hbehind : 501 < safeBlock - lastBlock) :
    computeRange lastBlock safeBlock = some (lastBlock + 1, lastBlock + 501) ∧
    (lastBlock + 501) - (lastBlock + 1) + 1 = MAX_BLOCKS_PER_CYCLE + 1 ∧
    min safeBlock ((lastBlock + 1) + MAX_BLOCKS_PER_CYCLE) = lastBlock + 501 := by
  refine ⟨?_, by simp only [MAX_BLOCKS_PER_CYCLE]; omega, ?_⟩
  · simp only [computeRange, MAX_BLOCKS_PER_CYCLE]
    rw [if_neg (by omega), if_neg h0, if_pos (by omega)]
    simp only [Option.some.injEq, Prod.mk.injEq]
    exact ⟨trivial, by ring⟩
  · simp only [MAX_BLOCKS_PER_CYCLE]
    omega

theorem scheduler_advance_per_cycle_witness :
    (1000 : Int) ≠ 0 ∧ (501 : Int) < 11000 - 1000 ∧
    (computeRange 1000 11000 = some (1000 + 1, 1000 + 501) ∧
      ((1000 : Int) + 501) - (1000 + 1) + 1 = MAX_BLOCKS_PER_CYCLE + 1 ∧
      min (11000 : Int) ((1000 + 1) + MAX_BLOCKS_PER_CYCLE) = 1000 + 501) :=
  ⟨by decide, by decide,
    scheduler_advance_per_cycle 1000 11000 (by decide) (by decide)⟩

/-! ## Indexer chunking loop (`EVMIndexer.indexBlockRange`)

The while loop in `indexBlockRange` walks `[fromBlock, toBlock]`:
`currentTo = currentFrom + MAX_BLOCKS_PER_LOG_QUERY - 1n > toBlock ? toBlock
: currentFrom + MAX_BLOCKS_PER_LOG_QUERY - 1n`, then
`currentFrom = currentTo + 1n`.  We model the loop with the chunk size as a
parameter `q` (the source fixes `q = MAX_BLOCKS_PER_LOG_QUERY = 5`); the loop
terminates because `q ≥ 1`, which we express with an explicit fuel argument
that `chunkRanges` instantiates with the width of the range. -/

/-- `MAX_BLOCKS_PER_LOG_QUERY = 5n` in `EVMIndexer.ts` (QuickNode free tier). -/
def MAX_BLOCKS_PER_LOG_QUERY : Int := 5

/-- One iteration of the chunking while loop, with fuel. -/
def chunkRangesFuel (q : Int) : Nat → Int → Int → List (Int × Int)
  | 0, _, _ => []
  | fuel + 1, currentFrom, toBlock =>
    if currentFrom ≤ toBlock then
      let currentTo :=
        if currentFrom + q - 1 > toBlock then toBlock else currentFrom + q - 1
      (currentFrom, currentTo) :: chunkRangesFuel q fuel (currentTo + 1) toBlock
    else []

/-- The chunk list produced by the loop in `indexBlockRange` for chunk size
`q`, starting at `fromBlock` and ending at `toBlock`. -/
def chunkRanges (q : Int) (fromBlock toBlock : Int) : List (Int × Int) :=
  chunkRangesFuel q (toBlock + 1 - fromBlock).toNat fromBlock toBlock

theorem chunkRangesFuel_bounds (q : Int) (hq : 1 ≤ q) :
    ∀ (fuel : Nat) (fromBlock toBlock : Int),
      ∀ c ∈ chunkRangesFuel q fuel fromBlock toBlock,
        fromBlock ≤ c.1 ∧ c.1 ≤ c.2 ∧ c.2 ≤ toBlock ∧ c.2 - c.1 + 1 ≤ q := by
  intro fuel
  induction fuel with
  | zero => intro fromBlock toBlock c hc; simp [chunkRangesFuel] at hc
  | succ fuel ih =>
      intro fromBlock toBlock c hc
      simp only [chunkRangesFuel] at hc
      split at hc
      next hle =>
        simp only [List.mem_cons] at hc
        rcases hc with hc | hc
        · subst hc
          constructor
          · exact le_refl _
          split_ifs <;> refine ⟨by omega, by omega, by omega⟩
        · have := ih _ _ c hc
          split_ifs at this <;> exact ⟨by omega, this.2.1, this.2.2.1, this.2.2.2⟩
      next => simp at hc

theorem chunkRangesFuel_count (q : Int) (hq : 1 ≤ q) :
    ∀ (fuel : Nat) (fromBlock toBlock b : Int),
      (toBlock + 1 - fromBlock).toNat ≤ fuel →
      fromBlock ≤ b → b ≤ toBlock →
      (chunkRangesFuel q fuel fromBlock toBlock).countP
        (fun c => decide (c.1 ≤ b ∧ b ≤ c.2)) = 1 := by
  intro fuel
  induction fuel with
  | zero => intro fromBlock toBlock b hfuel hfb hbt; omega
  | succ fuel ih =>
      intro fromBlock toBlock b hfuel hfb hbt
      have hft : fromBlock ≤ toBlock := le_trans hfb hbt
      simp only [chunkRangesFuel, if_pos hft, List.countP_cons]
      set currentTo :=
        if fromBlock + q - 1 > toBlock then toBlock else fromBlock + q - 1 with hcurr
      have hcf : fromBlock ≤ currentTo := by
        rw [hcurr]; split_ifs <;> omega
      have hct : currentTo ≤ toBlock := by
        rw [hcurr]; split_ifs <;> omega
      by_cases hb : b ≤ currentTo
      · have htail :
            (chunkRangesFuel q fuel (currentTo + 1) toBlock).countP
              (fun c => decide (c.1 ≤ b ∧ b ≤ c.2)) = 0 := by
          rw [List.countP_eq_zero]
          intro c hc
          have := chunkRangesFuel_bounds q hq fuel (currentTo + 1) toBlock c hc
          simp only [decide_eq_true_eq]
          omega
        rw [htail]
        simp only [decide_eq_true_eq]
        rw [if_pos ⟨hfb, hb⟩]
      · have hhead : ¬ (fromBlock ≤ b ∧ b ≤ currentTo) := fun h => hb h.2
        rw [if_neg (by simpa using hhead)]
        have := ih (currentTo + 1) toBlock b (by omega) (by omega) hbt
        omega

/-- C6: the chunking loop of `indexBlockRange` partitions `[fromBlock,
toBlock]` into sub-ranges each of size at most the chunk size `q`, covering
every block of the range in exactly one chunk (no gaps, no overlaps), for any
chunk size `q ≥ 1`; the source instantiates `q = MAX_BLOCKS_PER_LOG_QUERY`. -/
theorem chunk_partition (q fromBlock toBlock : Int) (hq : 1 ≤ q)
    (hft : fromBlock ≤ toBlock) :
    (∀ c ∈ chunkRanges q fromBlock toBlock,
       fromBlock ≤ c.1 ∧ c.1 ≤ c.2 ∧ c.2 ≤ toBlock ∧ c.2 - c.1 + 1 ≤ q) ∧
    (∀ b : Int, fromBlock ≤ b → b ≤ toBlock →
       (chunkRanges q fromBlock toBlock).countP
         (fun c => decide (c.1 ≤ b ∧ b ≤ c.2)) = 1) := by
  constructor
  · exact fun c hc => chunkRangesFuel_bounds q hq _ fromBlock toBlock c hc
  · intro b hfb hbt
    exact chunkRangesFuel_count q hq _ fromBlock toBlock b (le_refl _) hfb hbt

theorem chunk_partition_witness :
    (1 : Int) ≤ MAX_BLOCKS_PER_LOG_QUERY ∧ (10 : Int) ≤ 22 ∧
    ((∀ c ∈ chunkRanges MAX_BLOCKS_PER_LOG_QUERY 10 22,
        (10 : Int) ≤ c.1 ∧ c.1 ≤ c.2 ∧ c.2 ≤ 22 ∧
          c.2 - c.1 + 1 ≤ MAX_BLOCKS_PER_LOG_QUERY) ∧
      (∀ b : Int, 10 ≤ b → b ≤ 22 →
        (chunkRanges MAX_BLOCKS_PER_LOG_QUERY 10 22).countP
          (fun c => decide (c.1 ≤ b ∧ b ≤ c.2)) = 1)) :=
  ⟨by decide, by decide,
    chunk_partition MAX_BLOCKS_PER_LOG_QUERY 10 22 (by decide) (by decide)⟩

/-! ## Raw burn/mint tables (`EVMIndexer.insertBurns` / `insertMints`)

The tables `burns` and `mints` both carry
`UNIQUE(chain_domain, tx_hash, log_index)`, and the inserts use
`ON CONFLICT (chain_domain, tx_hash, log_index) DO NOTHING`.  A table is
modelled as the list of its rows; a row whose composite key is already
present is silently skipped. -/

/-- A row of the `burns` table (`BurnRecord` in `EVMIndexer.ts`). -/
structure BurnRow where
  chainDomain : Nat
  destinationDomain : Nat
  amount : String
  token : String
  blockTime : Nat
  txHash : String
  blockNumber : Nat
  logIndex : Nat
deriving DecidableEq

/-- A row of the `mints` table (`MintRecord` in `EVMIndexer.ts`). -/
structure MintRow where
  chainDomain : Nat
  sourceDomain : Nat
  amount : String
  token : String
  mintRecipient : String
  blockTime : Nat
  txHash : String
  blockNumber : Nat
  logIndex : Nat
deriving DecidableEq

/-- The idempotency key `(chain_domain, tx_hash, log_index)` of a burn row. -/
def BurnRow.key (b : BurnRow) : Nat × String × Nat :=
  (b.chainDomain, b.txHash, b.logIndex)

/-- The idempotency key `(chain_domain, tx_hash, log_index)` of a mint row. -/
def MintRow.key (m : MintRow) : Nat × String × Nat :=
  (m.chainDomain, m.txHash, m.logIndex)

/-- Insert one burn row with `ON CONFLICT (chain_domain, tx_hash, log_index)
DO NOTHING`: a key collision leaves the table unchanged and raises no error. -/
def insertBurnRow (table : List BurnRow) (b : BurnRow) : List BurnRow :=
  if table.any (fun r => decide (r.key = b.key)) then table else table ++ [b]

/-- Insert one mint row with `ON CONFLICT (chain_domain, tx_hash, log_index)
DO NOTHING`: a key collision leaves the table unchanged and raises no error. -/
def insertMintRow (table : List MintRow) (m : MintRow) : List MintRow :=
  if table.any (fun r => decide (r.key = m.key)) then table else table ++ [m]

/-- `EVMIndexer.insertBurns`: a multi-row `INSERT ... ON CONFLICT DO NOTHING`. -/
def insertBurns (table : List BurnRow) (bs : List BurnRow) : List BurnRow :=
  bs.foldl insertBurnRow table

/-- `EVMIndexer.insertMints`: a multi-row `INSERT ... ON CONFLICT DO NOTHING`. -/
def insertMints (table : List MintRow) (ms : List MintRow) : List MintRow :=
  ms.foldl insertMintRow table

theorem insertBurnRow_key_mem (table : List BurnRow) (b : BurnRow) :
    (insertBurnRow table b).any (fun r => decide (r.key = b.key)) = true := by
  unfold insertBurnRow
  split
  next h => exact h
  next h =>
      simp only [List.any_append, List.any_cons, List.any_nil,
        decide_eq_true_eq, Bool.or_eq_true]
      exact Or.inr (Or.inl trivial)

theorem insertMintRow_key_mem (table : List MintRow) (m : MintRow) :
    (insertMintRow table m).any (fun r => decide (r.key = m.key)) = true := by
  unfold insertMintRow
  split
  next h => exact h
  next h =>
      simp only [List.any_append, List.any_cons, List.any_nil,
        decide_eq_true_eq, Bool.or_eq_true]
      exact Or.inr (Or.inl trivial)

/-- C7: ingesting the same raw burn or mint event (same composite key) a
second time is a no-op — the stored table after the duplicate insert equals
the table after the first insert — and the duplicate is silently skipped by
the conflict clause rather than raising an error. -/
theorem ingest_idempotent (tb : List BurnRow) (b : BurnRow)
    (tm : List MintRow) (m : MintRow) :
    insertBurnRow (insertBurnRow tb b) b = insertBurnRow tb b ∧
    insertMintRow (insertMintRow tm m) m = insertMintRow tm m ∧
    insertBurns (insertBurns tb [b]) [b] = insertBurns tb [b] ∧
    insertMints (insertMints tm [m]) [m] = insertMints tm [m] := by
  have hb : insertBurnRow (insertBurnRow tb b) b = insertBurnRow tb b := by
    conv_lhs => rw [insertBurnRow]
    rw [if_pos (insertBurnRow_key_mem tb b)]
  have hm : insertMintRow (insertMintRow tm m) m = insertMintRow tm m := by
    conv_lhs => rw [insertMintRow]
    rw [if_pos (insertMintRow_key_mem tm m)]
  exact ⟨hb, hm, by simpa [insertBurns] using hb, by simpa [insertMints] using hm⟩

/-! ## Mint source-domain decoding (`EVMIndexer.decodeSourceDomainFromTx`)

The decode walks the hex string of the enclosing transaction's calldata.  We
model the calldata as the list of its hex digits (nibble values) after the
`0x` prefix; `none` as input stands for a failed `getTransaction` call or a
missing input field.  `hexParse` is `parseInt(hex, 16)` on a slice of valid
hex digits.  The source's guard `tx.input.length < 10` counts the `0x`
prefix, i.e. fewer than 8 hex digits. -/

/-- `parseInt(slice, 16)` over hex digits. -/
def hexParse (ds : List (Fin 16)) : Nat :=
  ds.foldl (fun a d => a * 16 + d.val) 0

/-- `EVMIndexer.decodeSourceDomainFromTx`: skip the 4-byte selector, read the
32-byte offset to the message, the 32-byte message length, then the
`sourceDomain` field at bytes 4..8 of the MessageV2 header; return `none` on
any malformed or too-short input. -/
def decodeSourceDomainFromTx (input : Option (List (Fin 16))) : Option Nat :=
  match input with
  | none => none
  | some digits =>
    if digits.length < 8 then none
    else
      let body := digits.drop 8
      if body.length < 128 then none
      else
        let msgOffset := hexParse (body.take 64)
        let msgPos := msgOffset * 2
        if body.length < msgPos + 64 then none
        else
          let msgLen := hexParse ((body.drop msgPos).take 64)
          if body.length < msgPos + 64 + msgLen * 2 then none
          else
            let msgBodyHex := (body.drop (msgPos + 64)).take (msgLen * 2)
            if msgBodyHex.length < 16 then none
            else some (hexParse ((msgBodyHex.drop 8).take 8))

/-- The `MintAndWithdraw` log fields used by the mint branch of
`indexBlockRange` (decoded event args plus log position). -/
structure MintLogArgs where
  mintRecipient : String
  amount : Nat
  txHash : String
  blockNumber : Nat
  logIndex : Nat
deriving DecidableEq

/-- The `MintRecord` pushed by the mint branch of `indexBlockRange`:
`sourceDomain: sourceDomain ?? 0` — the decoded source domain, or the
sentinel 0 when the decode returned null. -/
def mkMintRecord (domainId : Nat) (args : MintLogArgs) (blockTime : Nat)
    (txInput : Option (List (Fin 16))) : MintRow :=
  { chainDomain := domainId
    sourceDomain := (decodeSourceDomainFromTx txInput).getD 0
    amount := toString args.amount
    token := "USDC"
    mintRecipient := args.mintRecipient
    blockTime := blockTime
    txHash := args.txHash
    blockNumber := args.blockNumber
    logIndex := args.logIndex }

/-- The mint branch of `indexBlockRange` appends the record to `mints`
unconditionally — it never drops a mint because of a failed decode. -/
def mintBranch (mints : List MintRow) (domainId : Nat) (args : MintLogArgs)
    (blockTime : Nat) (txInput : Option (List (Fin 16))) : List MintRow :=
  mints ++ [mkMintRecord domainId args blockTime txInput]

/-- C8: a mint whose enclosing transaction calldata cannot be decoded
(`decodeSourceDomainFromTx` returns `none`) is still recorded — the mint
branch appends exactly one record for it — and that record carries the
sentinel source domain 0. -/
theorem mint_sentinel_on_decode_failure (mints : List MintRow) (domainId : Nat)
    (args : MintLogArgs) (blockTime : Nat) (txInput : Option (List (Fin 16)))
    (h : decodeSourceDomainFromTx txInput = none) :
    (mkMintRecord domainId args blockTime txInput).sourceDomain = 0 ∧
    mintBranch mints domainId args blockTime txInput =
      mints ++ [mkMintRecord domainId args blockTime txInput] := by
  refine ⟨?_, rfl⟩
  simp [mkMintRecord, h]

theorem mint_sentinel_on_decode_failure_witness :
    decodeSourceDomainFromTx (some [1, 2, 3]) = none ∧
    ((mkMintRecord 6 ⟨"0xr", 1000000, "0xmint", 50, 2⟩ 777
        (some [1, 2, 3])).sourceDomain = 0 ∧
      mintBranch [] 6 ⟨"0xr", 1000000, "0xmint", 50, 2⟩ 777 (some [1, 2, 3]) =
        [] ++ [mkMintRecord 6 ⟨"0xr", 1000000, "0xmint", 50, 2⟩ 777
          (some [1, 2, 3])]) :=
  ⟨rfl, mint_sentinel_on_decode_failure [] 6 ⟨"0xr", 1000000, "0xmint", 50, 2⟩
    777 (some [1, 2, 3]) rfl⟩

/-! ## Transfer state machine (`TransferService`)

The `Transfer` aggregate and the event payloads follow
`types/transfer.ts`.  Timestamps are `Nat` milliseconds; `nonce` is a string
(as in the source); optional columns are `Option`.  The `cctp_transfers`
table and the in-memory `transferCache` are keyed lists; `upsertTransfer`
follows the `ON CONFLICT (transfer_id) DO UPDATE SET` column list, which
updates only `mint_tx_hash`, `iris_attested_at`, `mint_at`, `status`,
`error_reason`, `message_body` and `finality_threshold_executed`. -/

inductive TransferStatus
  | BURN_INITIATED
  | MESSAGE_SENT
  | ATTESTATION_PENDING
  | ATTESTATION_COMPLETE
  | RECEIVE_MESSAGE_PENDING
  | MINT_COMPLETE
  | ERROR
  | EXPIRED
deriving DecidableEq

inductive TransferMode
  | FAST
  | STANDARD
deriving DecidableEq

inductive TokenType
  | USDC
  | USYC
deriving DecidableEq

structure Transfer where
  transferId : String
  sourceDomain : Nat
  destinationDomain : Nat
  mode : TransferMode
  tokenType : TokenType
  amount : String
  burnTxHash : String
  mintTxHash : Option String
  burnAt : Nat
  irisAttestedAt : Option Nat
  mintAt : Option Nat
  status : TransferStatus
  errorReason : Option String
  nonce : String
  messageBody : Option String
  sender : String
  recipient : String
  minFinalityThreshold : Nat
  maxFee : String
  finalityThresholdExecuted : Option Nat
deriving DecidableEq

structure BurnEvent where
  domain : Nat
  nonce : String
  txHash : String
  blockNumber : Nat
  timestamp : Nat
  sender : String
  recipient : String
  amount : String
  destinationDomain : Nat
  minFinalityThreshold : Nat
  tokenType : TokenType
deriving DecidableEq

structure MessageSentEvent where
  domain : Nat
  nonce : String
  txHash : String
  timestamp : Nat
  messageBody : String
  sender : String
deriving DecidableEq

structure ReceiveMessageEvent where
  domain : Nat
  nonce : String
  txHash : String
  blockNumber : Nat
  timestamp : Nat
  caller : String
  sourceDomain : Nat
deriving DecidableEq

structure MintEvent where
  domain : Nat
  nonce : String
  txHash : String
  timestamp : Nat
  recipient : String
  amount : String
  tokenType : TokenType
deriving DecidableEq

/-- The attestation service's `GET message` payload (`IrisMessage`). -/
structure IrisResponse where
  status : String
  attestation : Option String
  error : Option String
  finalityThresholdExecuted : Option Nat
deriving DecidableEq

/-- The `capabilities` block of a chain's configuration in
`config/chains.ts`. -/
structure ChainCapabilities where
  standardSource : Bool
  fastSource : Bool
  destination : Bool
deriving DecidableEq

/-- A chain's configuration entry; fields not consulted by the transfer
state machine (rpcUrl, vmType, token support, contract addresses, block
time) are omitted. -/
structure ChainMetadata where
  domainId : Nat
  name : String
  capabilities : ChainCapabilities
deriving DecidableEq

/-- `chainConfig[network]`: domain id to chain configuration entry. -/
def ChainConfig : Type := Nat → Option ChainMetadata

/-- `isFastTransferSupported(domain)`:
`chainConfig[network][domain]?.capabilities.fastSource || false`. -/
def isFastTransferSupported (cfg : ChainConfig) (domain : Nat) : Bool :=
  ((cfg domain).map fun c => c.capabilities.fastSource).getD false

/-- `TransferService.determineTransferMode`: STANDARD when the source domain
lacks fast support, FAST when `minFinalityThreshold <= 1000`, else STANDARD. -/
def determineTransferMode (cfg : ChainConfig) (e : BurnEvent) : TransferMode :=
  if isFastTransferSupported cfg e.domain = false then TransferMode.STANDARD
  else if e.minFinalityThreshold ≤ 1000 then TransferMode.FAST
  else TransferMode.STANDARD

/-- The transfer id rendered as in the source: the interpolation
of `domain` and `nonce` joined by a dash. -/
def mkTransferId (domain : Nat) (nonce : String) : String :=
  toString domain ++ "-" ++ nonce

/-- The column merge of `upsertTransfer`'s `ON CONFLICT (transfer_id)
DO UPDATE SET ...`: only the listed columns take the excluded (new) row's
values; every other column keeps the stored row's value. -/
def mergeTransferRow (old excluded : Transfer) : Transfer :=
  { old with
    mintTxHash := excluded.mintTxHash
    irisAttestedAt := excluded.irisAttestedAt
    mintAt := excluded.mintAt
    status := excluded.status
    errorReason := excluded.errorReason
    messageBody := excluded.messageBody
    finalityThresholdExecuted := excluded.finalityThresholdExecuted }

/-- `upsertTransfer` on the keyed `cctp_transfers` table (`transfer_id` is
the primary key, so at most one row matches). -/
def upsertTransfer : List Transfer → Transfer → List Transfer
  | [], t => [t]
  | r :: rs, t =>
    if r.transferId = t.transferId then mergeTransferRow r t :: rs
    else r :: upsertTransfer rs t

/-- `getTransferById`: `SELECT * FROM cctp_transfers WHERE transfer_id = $1`. -/
def getTransferById (db : List Transfer) (id : String) : Option Transfer :=
  db.find? (fun r => decide (r.transferId = id))

/-- `transferCache.get`. -/
def cacheGet (cache : List (String × Transfer)) (id : String) : Option Transfer :=
  (cache.find? (fun p => decide (p.1 = id))).map (fun p => p.2)

/-- `transferCache.set`. -/
def cacheSet : List (String × Transfer) → String → Transfer →
    List (String × Transfer)
  | [], id, t => [(id, t)]
  | p :: ps, id, t =>
    if p.1 = id then (id, t) :: ps else p :: cacheSet ps id t

/-- `transferCache.delete`. -/
def cacheDelete (cache : List (String × Transfer)) (id : String) :
    List (String × Transfer) :=
  cache.filter (fun p => decide (p.1 ≠ id))

/-- The mutable state of `TransferService`: the in-memory cache plus the
`cctp_transfers` table. -/
structure ServiceState where
  transferCache : List (String × Transfer)
  db : List Transfer
deriving DecidableEq

/-- `this.transferCache.get(transferId) || await getTransferById(transferId)`. -/
def lookupTransfer (s : ServiceState) (id : String) : Option Transfer :=
  match cacheGet s.transferCache id with
  | some t => some t
  | none => getTransferById s.db id

/-- Insertion step for `ORDER BY burn_at ASC`. -/
def insertSortedByBurnAt (t : Transfer) : List Transfer → List Transfer
  | [] => [t]
  | x :: xs =>
    if t.burnAt ≤ x.burnAt then t :: x :: xs else x :: insertSortedByBurnAt t xs

/-- `ORDER BY burn_at ASC`. -/
def sortByBurnAt (l : List Transfer) : List Transfer :=
  l.foldr insertSortedByBurnAt []

/-- `getPendingTransfers`: `WHERE status IN (MESSAGE_SENT,
ATTESTATION_PENDING, ATTESTATION_COMPLETE) ORDER BY burn_at ASC`.  Note the
status set does not include RECEIVE_MESSAGE_PENDING. -/
def getPendingTransfers (db : List Transfer) : List Transfer :=
  sortByBurnAt (db.filter (fun t =>
    decide (t.status = TransferStatus.MESSAGE_SENT ∨
      t.status = TransferStatus.ATTESTATION_PENDING ∨
      t.status = TransferStatus.ATTESTATION_COMPLETE)))

/-- `TransferService.checkIrisAttestation`, with the attestation service's
reply passed as a value (`none` models the not-found reply) and `now` the
wall clock read for `irisAttestedAt`.  The returned list collects the
transfers passed to `metricsAggregator.aggregateTransfer` during the call —
note no branch of the source function invokes the aggregator. -/
def checkIrisAttestation (s : ServiceState) (t : Transfer)
    (iris : Option IrisResponse) (now : Nat) : ServiceState × List Transfer :=
  match iris with
  | none =>
    if t.status = TransferStatus.MESSAGE_SENT then
      let t1 := { t with status := TransferStatus.ATTESTATION_PENDING }
      ({ transferCache := cacheSet s.transferCache t1.transferId t1
         db := upsertTransfer s.db t1 }, [])
    else (s, [])
  | some r =>
    if r.status = "complete" ∧ r.attestation ≠ none then
      let t1 := { t with
        status := TransferStatus.ATTESTATION_COMPLETE
        irisAttestedAt := some now
        finalityThresholdExecuted := r.finalityThresholdExecuted }
      ({ transferCache := cacheSet s.transferCache t1.transferId t1
         db := upsertTransfer s.db t1 }, [])
    else if r.status = "failed" then
      let t1 := { t with
        status := TransferStatus.ERROR
        errorReason := some (r.error.getD "Attestation failed") }
      ({ transferCache := cacheDelete s.transferCache t1.transferId
         db := upsertTransfer s.db t1 }, [])
    else (s, [])

/-- `TransferService.handleBurnEvent`: build a fresh BURN_INITIATED transfer
from the event and upsert it. -/
def handleBurnEvent (cfg : ChainConfig) (s : ServiceState) (e : BurnEvent) :
    ServiceState :=
  let transferId := mkTransferId e.domain e.nonce
  let t : Transfer := {
    transferId := transferId
    sourceDomain := e.domain
    destinationDomain := e.destinationDomain
    mode := determineTransferMode cfg e
    tokenType := e.tokenType
    amount := e.amount
    burnTxHash := e.txHash
    mintTxHash := none
    burnAt := e.timestamp
    irisAttestedAt := none
    mintAt := none
    status := TransferStatus.BURN_INITIATED
    errorReason := none
    nonce := e.nonce
    messageBody := none
    sender := e.sender
    recipient := e.recipient
    minFinalityThreshold := e.minFinalityThreshold
    maxFee := "0"
    finalityThresholdExecuted := none }
  { transferCache := cacheSet s.transferCache transferId t
    db := upsertTransfer s.db t }

/-- `TransferService.handleMessageSentEvent`: look the transfer up in the
cache then the table; unknown id is a warned no-op; otherwise set status
MESSAGE_SENT, record the message body, persist, and immediately check the
attestation service. -/
def handleMessageSentEvent (s : ServiceState) (e : MessageSentEvent)
    (iris : Option IrisResponse) (now : Nat) : ServiceState × List Transfer :=
  let transferId := mkTransferId e.domain e.nonce
  match lookupTransfer s transferId with
  | none => (s, [])
  | some t =>
    let t1 := { t with
      status := TransferStatus.MESSAGE_SENT
      messageBody := some e.messageBody }
    let s1 : ServiceState := {
      transferCache := cacheSet s.transferCache transferId t1
      db := upsertTransfer s.db t1 }
    checkIrisAttestation s1 t1 iris now

/-- `TransferService.handleReceiveMessageEvent`: unknown id is a warned
no-op; otherwise set status RECEIVE_MESSAGE_PENDING and persist. -/
def handleReceiveMessageEvent (s : ServiceState) (e : ReceiveMessageEvent) :
    ServiceState :=
  let transferId := mkTransferId e.sourceDomain e.nonce
  match lookupTransfer s transferId with
  | none => s
  | some t =>
    let t1 := { t with status := TransferStatus.RECEIVE_MESSAGE_PENDING }
    { transferCache := cacheSet s.transferCache transferId t1
      db := upsertTransfer s.db t1 }

/-- `TransferService.handleMintEvent`: search `getPendingTransfers()` for the
first transfer on the mint's destination domain with the mint's recipient and
status RECEIVE_MESSAGE_PENDING; a match becomes MINT_COMPLETE with `mintAt`
and `mintTxHash` set, is persisted, dropped from the cache, and passed to
`metricsAggregator.aggregateTransfer` (the returned list); no match drops the
mint. -/
def handleMintEvent (s : ServiceState) (e : MintEvent) :
    ServiceState × List Transfer :=
  let pendingTransfers := getPendingTransfers s.db
  match pendingTransfers.find? (fun t =>
    decide (t.destinationDomain = e.domain ∧ t.recipient = e.recipient ∧
      t.status = TransferStatus.RECEIVE_MESSAGE_PENDING)) with
  | none => (s, [])
  | some matching =>
    let m1 := { matching with
      status := TransferStatus.MINT_COMPLETE
      mintAt := some e.timestamp
      mintTxHash := some e.txHash }
    ({ transferCache := cacheDelete s.transferCache m1.transferId
       db := upsertTransfer s.db m1 }, [m1])

/-! ## Metrics aggregator (`MetricsAggregator.aggregateTransfer`) -/

/-- One additive update to a `(bucketStart, fromChain, toChain, mode,
tokenType)` metrics bucket, the argument tuple of `upsert_transfer_metrics`. -/
structure MetricsUpdate where
  bucketStart : Nat
  fromChain : Nat
  toChain : Nat
  mode : TransferMode
  tokenType : TokenType
  volume : String
  burnToMintMs : Int
  burnToIrisMs : Int
  irisToMintMs : Int
  isError : Bool
  isIncomplete : Bool
deriving DecidableEq

/-- `getBucketStart`: truncate the burn timestamp to the minute. -/
def getBucketStart (timestamp : Nat) : Nat :=
  timestamp / 60000 * 60000

/-- `MetricsAggregator.aggregateTransfer`: non-terminal transfers are
ignored; terminal ones produce one bucket update with the three durations
(0 when an intermediate timestamp is missing). -/
def aggregateTransfer (t : Transfer) : Option MetricsUpdate :=
  if t.status ≠ TransferStatus.MINT_COMPLETE ∧
      t.status ≠ TransferStatus.ERROR then none
  else some {
    bucketStart := getBucketStart t.burnAt
    fromChain := t.sourceDomain
    toChain := t.destinationDomain
    mode := t.mode
    tokenType := t.tokenType
    volume := t.amount
    burnToMintMs := (t.mintAt.map (fun m => (m : Int) - (t.burnAt : Int))).getD 0
    burnToIrisMs :=
      (t.irisAttestedAt.map (fun a => (a : Int) - (t.burnAt : Int))).getD 0
    irisToMintMs :=
      match t.mintAt, t.irisAttestedAt with
      | some m, some a => (m : Int) - (a : Int)
      | _, _ => 0
    isError := decide (t.status = TransferStatus.ERROR)
    isIncomplete := decide (t.status ≠ TransferStatus.MINT_COMPLETE) }

/-! ## Lemmas about the transfer state machine -/

lemma mem_insertSortedByBurnAt (t a : Transfer) (l : List Transfer) :
    a ∈ insertSortedByBurnAt t l ↔ a = t ∨ a ∈ l := by
  induction l with
  | nil => simp [insertSortedByBurnAt]
  | cons x xs ih =>
      unfold insertSortedByBurnAt
      split_ifs
      · simp [List.mem_cons]
      · simp only [List.mem_cons, ih]
        tauto

lemma mem_sortByBurnAt (a : Transfer) (l : List Transfer) :
    a ∈ sortByBurnAt l ↔ a ∈ l := by
  induction l with
  | nil => simp [sortByBurnAt]
  | cons x xs ih =>
      simp only [sortByBurnAt, List.foldr_cons] at ih ⊢
      rw [mem_insertSortedByBurnAt, ih, List.mem_cons]

lemma pendingTransfers_status (db : List Transfer) (t : Transfer)
    (ht : t ∈ getPendingTransfers db) :
    t.status = TransferStatus.MESSAGE_SENT ∨
    t.status = TransferStatus.ATTESTATION_PENDING ∨
    t.status = TransferStatus.ATTESTATION_COMPLETE := by
  unfold getPendingTransfers at ht
  rw [mem_sortByBurnAt] at ht
  simpa using (List.mem_filter.mp ht).2

/-- `getPendingTransfers` never returns a transfer whose status is
RECEIVE_MESSAGE_PENDING, so the match predicate of `handleMintEvent` fails on
every candidate. -/
lemma handleMint_noop (s : ServiceState) (e : MintEvent) :
    handleMintEvent s e = (s, []) := by
  have hfind : (getPendingTransfers s.db).find? (fun t =>
      decide (t.destinationDomain = e.domain ∧ t.recipient = e.recipient ∧
        t.status = TransferStatus.RECEIVE_MESSAGE_PENDING)) = none := by
    rw [List.find?_eq_none]
    intro t ht
    have hst := pendingTransfers_status s.db t ht
    simp only [decide_eq_true_eq, not_and]
    intro _ _ hrmp
    rcases hst with h | h | h <;> rw [hrmp] at h <;> exact absurd h (by decide)
  simp only [handleMintEvent, hfind]

lemma getTransferById_upsert_isSome (db : List Transfer) (t : Transfer) :
    (getTransferById (upsertTransfer db t) t.transferId).isSome = true := by
  induction db with
  | nil => simp [upsertTransfer, getTransferById]
  | cons r rs ih =>
      by_cases hp : r.transferId = t.transferId
      · simp [upsertTransfer, if_pos hp, getTransferById, List.find?_cons,
          mergeTransferRow, hp]
      · simp only [upsertTransfer, if_neg hp, getTransferById] at ih ⊢
        rw [List.find?_cons_of_neg _ (by simpa using hp)]
        exact ih

/-! ## Claim theorems about the transfer state machine -/

/-- A transfer that has completed: status MINT_COMPLETE with all timestamps
set (the state `TransferService` leaves in the table after a full run). -/
def tMintComplete : Transfer := {
  transferId := "0-1"
  sourceDomain := 0
  destinationDomain := 6
  mode := TransferMode.STANDARD
  tokenType := TokenType.USDC
  amount := "1000000"
  burnTxHash := "0xburn"
  mintTxHash := some "0xmint"
  burnAt := 1000
  irisAttestedAt := some 2000
  mintAt := some 3000
  status := TransferStatus.MINT_COMPLETE
  errorReason := none
  nonce := "1"
  messageBody := some "0xbody"
  sender := "0xsender"
  recipient := "0xrecipient"
  minFinalityThreshold := 2000
  maxFee := "0"
  finalityThresholdExecuted := some 2000 }

/-- A replayed receive-message event for the transfer `0-1`. -/
def rmReplay : ReceiveMessageEvent := {
  domain := 6
  nonce := "1"
  txHash := "0xrm"
  blockNumber := 7
  timestamp := 2500
  caller := "0xcaller"
  sourceDomain := 0 }

/-- C2 counterexample: processing a receive-message event for a transfer
whose status is terminal (MINT_COMPLETE) is not a no-op — the handler
overwrites the stored status with RECEIVE_MESSAGE_PENDING, changing the
stored row. -/
theorem terminal_transfer_mutated_cex :
    tMintComplete.status = TransferStatus.MINT_COMPLETE ∧
    (handleReceiveMessageEvent ⟨[], [tMintComplete]⟩ rmReplay).db.map
      (fun t => t.status) = [TransferStatus.RECEIVE_MESSAGE_PENDING] ∧
    ¬ ((handleReceiveMessageEvent ⟨[], [tMintComplete]⟩ rmReplay).db
        = [tMintComplete]) := by
  refine ⟨rfl, rfl, by decide⟩

/-- C2 (amended): only mint events and the attestation poller leave terminal
transfers untouched — a mint never modifies a stored transfer at all, and
`getPendingTransfers` (the poller's selection) never returns a terminal
transfer; burn, message-sent and receive-message events, by contrast, do
overwrite terminal transfers (see the counterexample). -/
theorem terminal_noop_for_mint_and_polling (s : ServiceState) (e : MintEvent)
    (db : List Transfer) (t u : Transfer) (ht : t ∈ s.db)
    (hu : u ∈ getPendingTransfers db) :
    t ∈ (handleMintEvent s e).1.db ∧ (handleMintEvent s e).2 = [] ∧
    u.status ≠ TransferStatus.MINT_COMPLETE ∧
    u.status ≠ TransferStatus.ERROR := by
  rw [handleMint_noop s e]
  have hu' := pendingTransfers_status db u hu
  refine ⟨ht, rfl, ?_, ?_⟩ <;>
    rcases hu' with h | h | h <;> rw [h] <;> decide

/-- A transfer waiting on attestation: status MESSAGE_SENT. -/
def tMsgSent : Transfer := {
  transferId := "0-7"
  sourceDomain := 0
  destinationDomain := 6
  mode := TransferMode.FAST
  tokenType := TokenType.USDC
  amount := "500000"
  burnTxHash := "0xburn7"
  mintTxHash := none
  burnAt := 4000
  irisAttestedAt := none
  mintAt := none
  status := TransferStatus.MESSAGE_SENT
  errorReason := none
  nonce := "7"
  messageBody := some "0xbody7"
  sender := "0xsender"
  recipient := "0xrecipient"
  minFinalityThreshold := 1000
  maxFee := "0"
  finalityThresholdExecuted := none }

/-- A mint event on domain 6 for the known recipient. -/
def mintReplay : MintEvent := {
  domain := 6
  nonce := "9"
  txHash := "0xmint9"
  timestamp := 3000
  recipient := "0xrecipient"
  amount := "1000000"
  tokenType := TokenType.USDC }

theorem terminal_noop_for_mint_and_polling_witness :
    tMintComplete ∈ (⟨[], [tMintComplete]⟩ : ServiceState).db ∧
    tMsgSent ∈ getPendingTransfers [tMsgSent] ∧
    (tMintComplete ∈
        (handleMintEvent ⟨[], [tMintComplete]⟩ mintReplay).1.db ∧
      (handleMintEvent ⟨[], [tMintComplete]⟩ mintReplay).2 = [] ∧
      tMsgSent.status ≠ TransferStatus.MINT_COMPLETE ∧
      tMsgSent.status ≠ TransferStatus.ERROR) :=
  ⟨by decide, by decide,
    terminal_noop_for_mint_and_polling ⟨[], [tMintComplete]⟩ mintReplay
      [tMsgSent] tMintComplete tMsgSent (by decide) (by decide)⟩

/-- C3 (code evaluation): `handleMintEvent` never updates any transfer and
never reaches the aggregator — `getPendingTransfers` only returns statuses
MESSAGE_SENT, ATTESTATION_PENDING and ATTESTATION_COMPLETE, while the match
predicate requires RECEIVE_MESSAGE_PENDING, so every mint is discarded even
when a matching RECEIVE_MESSAGE_PENDING transfer is stored. -/
theorem handleMintEvent_discards_every_mint (s : ServiceState) (e : MintEvent) :
    handleMintEvent s e = (s, []) :=
  handleMint_noop s e

/-- The attestation service's explicit failure reply with reason
"bad signature". -/
def irisFailed : IrisResponse := {
  status := "failed"
  attestation := none
  error := some "bad signature"
  finalityThresholdExecuted := none }

/-- C5 counterexample: when the attestation service returns
status "failed" with reason "bad signature" for the MESSAGE_SENT transfer
`0-7`, the stored transfer does become ERROR with that reason, but the
metrics aggregator is invoked zero times — not once. -/
theorem attestation_failure_not_counted_cex :
    tMsgSent.status = TransferStatus.MESSAGE_SENT ∧
    (checkIrisAttestation ⟨[("0-7", tMsgSent)], [tMsgSent]⟩ tMsgSent
        (some irisFailed) 999).1.db.map
      (fun t => (t.status, t.errorReason)) =
      [(TransferStatus.ERROR, some "bad signature")] ∧
    (checkIrisAttestation ⟨[("0-7", tMsgSent)], [tMsgSent]⟩ tMsgSent
        (some irisFailed) 999).2.length = 0 ∧
    ¬ ((checkIrisAttestation ⟨[("0-7", tMsgSent)], [tMsgSent]⟩ tMsgSent
        (some irisFailed) 999).2.length = 1) := by
  refine ⟨rfl, rfl, rfl, by decide⟩

/-- C5 (amended): an attestation-service reply of status "failed" with
reason "bad signature" makes `checkIrisAttestation` store the transfer with
status ERROR and errorReason "bad signature" and evict it from the cache,
but no branch of the call invokes the metrics aggregator, so the transfer is
counted zero times — even though the errored transfer would produce a bucket
update (with the error flag set) if it were passed to `aggregateTransfer`. -/
theorem attestation_failure_error_zero_counts (s : ServiceState)
    (t : Transfer) (r : IrisResponse) (now : Nat)
    (hs : r.status = "failed") (he : r.error = some "bad signature") :
    checkIrisAttestation s t (some r) now =
      ({ transferCache := cacheDelete s.transferCache t.transferId
         db := upsertTransfer s.db
           { t with status := TransferStatus.ERROR
                    errorReason := some "bad signature" } }, []) ∧
    (aggregateTransfer
        { t with status := TransferStatus.ERROR
                 errorReason := some "bad signature" }).map
      (fun u => u.isError) = some true := by
  constructor
  · simp only [checkIrisAttestation, hs, he]
    rw [if_neg (by simp)]
    simp
  · simp [aggregateTransfer]

theorem attestation_failure_error_zero_counts_witness :
    irisFailed.status = "failed" ∧ irisFailed.error = some "bad signature" ∧
    (checkIrisAttestation ⟨[("0-7", tMsgSent)], [tMsgSent]⟩ tMsgSent
        (some irisFailed) 999 =
      ({ transferCache :=
           cacheDelete
             (⟨[("0-7", tMsgSent)], [tMsgSent]⟩ : ServiceState).transferCache
             tMsgSent.transferId
         db := upsertTransfer
           (⟨[("0-7", tMsgSent)], [tMsgSent]⟩ : ServiceState).db
           { tMsgSent with status := TransferStatus.ERROR
                           errorReason := some "bad signature" } }, []) ∧
      (aggregateTransfer
          { tMsgSent with status := TransferStatus.ERROR
                          errorReason := some "bad signature" }).map
        (fun u => u.isError) = some true) :=
  ⟨rfl, rfl,
    attestation_failure_error_zero_counts ⟨[("0-7", tMsgSent)], [tMsgSent]⟩
      tMsgSent irisFailed 999 rfl rfl⟩

/-- C9: a message-sent or receive-message event whose transfer id resolves to
no stored transfer (neither cache nor table) leaves the service state exactly
as it was; a mint event never creates a transfer either; only a burn event
creates a new transfer aggregate (its id is present afterwards). -/
theorem unknown_transfer_event_noop (s : ServiceState)
    (ems : MessageSentEvent) (erm : ReceiveMessageEvent) (emint : MintEvent)
    (iris : Option IrisResponse) (now : Nat) (cfg : ChainConfig)
    (eb : BurnEvent)
    (hms : lookupTransfer s (mkTransferId ems.domain ems.nonce) = none)
    (hrm : lookupTransfer s (mkTransferId erm.sourceDomain erm.nonce) = none) :
    handleMessageSentEvent s ems iris now = (s, []) ∧
    handleReceiveMessageEvent s erm = s ∧
    handleMintEvent s emint = (s, []) ∧
    (getTransferById (handleBurnEvent cfg s eb).db
        (mkTransferId eb.domain eb.nonce)).isSome = true := by
  refine ⟨?_, ?_, handleMint_noop s emint, ?_⟩
  · simp only [handleMessageSentEvent, hms]
  · simp only [handleReceiveMessageEvent, hrm]
  · exact getTransferById_upsert_isSome s.db _

/-- A burn event on domain 0, nonce 9, destined for domain 6. -/
def burnFresh : BurnEvent := {
  domain := 0
  nonce := "9"
  txHash := "0xburn9"
  blockNumber := 12
  timestamp := 5000
  sender := "0xsender"
  recipient := "0xrecipient"
  amount := "1000000"
  destinationDomain := 6
  minFinalityThreshold := 1000
  tokenType := TokenType.USDC }

/-- A message-sent event for the unknown transfer `3-42`. -/
def msUnknown : MessageSentEvent := {
  domain := 3
  nonce := "42"
  txHash := "0xms"
  timestamp := 100
  messageBody := "0xbody"
  sender := "0xsender" }

theorem unknown_transfer_event_noop_witness :
    lookupTransfer ⟨[], []⟩ (mkTransferId msUnknown.domain msUnknown.nonce)
        = none ∧
    lookupTransfer ⟨[], []⟩ (mkTransferId rmReplay.sourceDomain rmReplay.nonce)
        = none ∧
    (handleMessageSentEvent ⟨[], []⟩ msUnknown (some irisFailed) 5 =
        (⟨[], []⟩, []) ∧
      handleReceiveMessageEvent ⟨[], []⟩ rmReplay = ⟨[], []⟩ ∧
      handleMintEvent ⟨[], []⟩ mintReplay = (⟨[], []⟩, []) ∧
      (getTransferById
          (handleBurnEvent (fun _ => none) ⟨[], []⟩ burnFresh).db
          (mkTransferId burnFresh.domain burnFresh.nonce)).isSome = true) :=
  ⟨rfl, rfl,
    unknown_transfer_event_noop ⟨[], []⟩ msUnknown rmReplay mintReplay
      (some irisFailed) 5 (fun _ => none) burnFresh rfl rfl⟩

/-- C10: the mode of the transfer created for a burn event is FAST exactly
when the source domain's chain configuration has the fastSource capability
and the burn's `minFinalityThreshold` is at most 1000; in every other case it
is STANDARD. -/
theorem transfer_mode_fast_iff (cfg : ChainConfig) (e : BurnEvent) :
    determineTransferMode cfg e = TransferMode.FAST ↔
      (isFastTransferSupported cfg e.domain = true ∧
        e.minFinalityThreshold ≤ 1000) := by
  constructor
  · intro h
    unfold determineTransferMode at h
    by_cases h1 : isFastTransferSupported cfg e.domain = false
    · rw [if_pos h1] at h
      exact absurd h (by decide)
    · rw [if_neg h1] at h
      by_cases h2 : e.minFinalityThreshold ≤ 1000
      · exact ⟨by simpa using h1, h2⟩
      · rw [if_neg h2] at h
        exact absurd h (by decide)
  · rintro ⟨hf, ht⟩
    unfold determineTransferMode
    rw [if_neg (by simp [hf]), if_pos ht]

end CCTP
